import Mathlib

/-!
Verification development for the m365-copilot-gateway server (src/server.js).

The gateway translates OpenAI-style chat-completion requests into Microsoft
Graph Copilot calls.  This file gives a shallow embedding of the parts of
src/server.js that the verified properties are about:

* the SSE translation engine of the streaming branch of
  `app.post("/v1/chat/completions")` (carry buffer, block extraction,
  data-line joining, JSON parsing, text extraction, watermark deltas,
  debug ring buffer, terminal stop chunk and end-of-stream marker);
* `pushDebugEvent` (the Redis-backed diagnostic ring buffer);
* `getUserContext` / `getAccountByUserKey` and the authentication branch of
  the chat endpoint;
* `acquireAccessToken` (MSAL token-cache load / silent acquire / persist);
* the device-code flow writes of `app.post("/auth/device/start")` and the
  poll endpoint `app.get("/auth/device/status/:txId")`;
* `normalizeMode`.

JavaScript strings are modelled as Lean `String` (a list of characters);
`slice`, `trim`, `startsWith`, `split`, `join` and `toLowerCase` are given
explicit models (`jsSliceFrom`, `jsTrim`, ...).  The Redis store is modelled
as association lists where a write prepends and a read takes the first
binding (so a write overwrites).  `JSON.parse` is modelled by `jsonParse`, a
fuel-based recursive-descent parser for the JSON fragment the gateway
exchanges (null / booleans / integers / strings with simple escapes /
arrays / objects); theorems about malformed payloads are stated for an
arbitrary parse function, so they do not depend on the parser model.
-/

/-! ## Models of the JavaScript string operations used by server.js -/

/-- Whitespace as recognised by the JavaScript `trim` family (the code points
the gateway actually encounters). -/
def isJsWhitespace (c : Char) : Bool :=
  c == ' ' || c == '\t' || c == '\n' || c == '\r' || c == '\x0b' || c == '\x0c'

/-- Model of JavaScript `String.prototype.trimStart`. -/
def jsTrimStart (s : String) : String :=
  String.mk (s.data.dropWhile isJsWhitespace)

/-- Model of JavaScript `String.prototype.trimEnd`. -/
def jsTrimEnd (s : String) : String :=
  String.mk ((s.data.reverse.dropWhile isJsWhitespace).reverse)

/-- Model of JavaScript `String.prototype.trim`. -/
def jsTrim (s : String) : String :=
  jsTrimStart (jsTrimEnd s)

/-- Model of JavaScript `String.prototype.startsWith`. -/
def jsStartsWith (s p : String) : Bool :=
  p.data.isPrefixOf s.data

/-- Model of JavaScript `s.slice(n)` (suffix from character index `n`). -/
def jsSliceFrom (s : String) (n : Nat) : String :=
  String.mk (s.data.drop n)

/-- Model of JavaScript `s.slice(0, n)` (prefix of `n` characters). -/
def jsTake (s : String) (n : Nat) : String :=
  String.mk (s.data.take n)

/-- Character-list worker for JavaScript `s.split("\n")`. -/
def splitLinesL : List Char → List (List Char)
  | [] => [[]]
  | '\n' :: rest => [] :: splitLinesL rest
  | c :: rest =>
    match splitLinesL rest with
    | [] => [[c]]
    | l :: ls => (c :: l) :: ls

/-- Model of JavaScript `s.split("\n")` (note `"".split("\n")` is `[""]`). -/
def jsSplitLines (s : String) : List String :=
  (splitLinesL s.data).map String.mk

/-- Model of JavaScript `lines.join("\n")`. -/
def joinNewline : List String → String
  | [] => ""
  | [s] => s
  | s :: rest => s ++ "\n" ++ joinNewline rest

/-- Model of JavaScript `String.prototype.toLowerCase` (ASCII letters; the
model-name strings the gateway compares against are all ASCII). -/
def jsToLowerCase (s : String) : String :=
  String.mk (s.data.map Char.toLower)

/-! ## JSON values and a model of `JSON.parse` -/

/-- JSON values as produced by `JSON.parse` (numbers restricted to the
integers, which is all the gateway's payloads use). -/
inductive Json where
  | null : Json
  | bool (b : Bool) : Json
  | num (n : Int) : Json
  | str (s : String) : Json
  | arr (elems : List Json) : Json
  | obj (fields : List (String × Json)) : Json
deriving Repr

/-- Property access `v[k]` on a parsed JSON value: defined only on objects,
and the last binding of a duplicated key wins, as in `JSON.parse`. -/
def Json.getField : Json → String → Option Json
  | .obj fields, k => fields.foldl (fun acc p => if p.1 = k then some p.2 else acc) none
  | _, _ => none

/-- Skip JSON whitespace. -/
def skipWs (cs : List Char) : List Char :=
  cs.dropWhile (fun c => c == ' ' || c == '\t' || c == '\n' || c == '\r')

/-- Decode one character escape of a JSON string literal. -/
def escapeChar (c : Char) : Option Char :=
  if c = '"' then some '"'
  else if c = '\\' then some '\\'
  else if c = '/' then some '/'
  else if c = 'n' then some '\n'
  else if c = 't' then some '\t'
  else if c = 'r' then some '\r'
  else if c = 'b' then some '\x08'
  else if c = 'f' then some '\x0c'
  else none

/-- Parse the body of a JSON string literal (after the opening quote),
returning the decoded characters and the input after the closing quote. -/
def parseStringBody : List Char → Option (List Char × List Char)
  | [] => none
  | '"' :: rest => some ([], rest)
  | '\\' :: rest =>
    match rest with
    | [] => none
    | e :: rest2 =>
      match escapeChar e, parseStringBody rest2 with
      | some c, some (s, r) => some (c :: s, r)
      | _, _ => none
  | c :: rest =>
    match parseStringBody rest with
    | some (s, r) => some (c :: s, r)
    | none => none

/-- Numeric value of a list of decimal digits. -/
def digitsVal (cs : List Char) : Nat :=
  cs.foldl (fun acc c => acc * 10 + (c.toNat - '0'.toNat)) 0

/-- Parse a JSON integer (optional minus sign, then decimal digits). -/
def parseNum (cs : List Char) : Option (Json × List Char) :=
  match cs with
  | '-' :: rest =>
    let ds := rest.takeWhile Char.isDigit
    let r := rest.dropWhile Char.isDigit
    if ds.isEmpty then none else some (.num (-(digitsVal ds : Int)), r)
  | _ =>
    let ds := cs.takeWhile Char.isDigit
    let r := cs.dropWhile Char.isDigit
    if ds.isEmpty then none else some (.num (digitsVal ds), r)

/-- Fuel-based recursive-descent parser for a JSON value.  After parsing one
array element (resp. object member) followed by a comma, the remainder of the
array (resp. object) is parsed by re-entering the same bracket branch, so the
whole parser is structurally recursive on the fuel. -/
def parseVal : Nat → List Char → Option (Json × List Char)
  | 0, _ => none
  | fuel + 1, cs =>
    match skipWs cs with
    | 'n' :: 'u' :: 'l' :: 'l' :: rest => some (.null, rest)
    | 't' :: 'r' :: 'u' :: 'e' :: rest => some (.bool true, rest)
    | 'f' :: 'a' :: 'l' :: 's' :: 'e' :: rest => some (.bool false, rest)
    | '"' :: rest =>
      match parseStringBody rest with
      | some (s, r) => some (.str (String.mk s), r)
      | none => none
    | '[' :: rest =>
      (match skipWs rest with
       | ']' :: r2 => some (.arr [], r2)
       | cs2 =>
         match parseVal fuel cs2 with
         | none => none
         | some (v, r) =>
           match skipWs r with
           | ']' :: r2 => some (.arr [v], r2)
           | ',' :: r2 =>
             match parseVal fuel ('[' :: r2) with
             | some (.arr vs, r3) => some (.arr (v :: vs), r3)
             | _ => none
           | _ => none)
    | '\x7b' :: rest =>
      (match skipWs rest with
       | '\x7d' :: r2 => some (.obj [], r2)
       | '"' :: rest2 =>
         match parseStringBody rest2 with
         | none => none
         | some (k, r) =>
           match skipWs r with
           | ':' :: r2 =>
             match parseVal fuel r2 with
             | none => none
             | some (v, r3) =>
               match skipWs r3 with
               | '\x7d' :: r4 => some (.obj [(String.mk k, v)], r4)
               | ',' :: r4 =>
                 match parseVal fuel ('\x7b' :: r4) with
                 | some (.obj ps, r5) => some (.obj ((String.mk k, v) :: ps), r5)
                 | _ => none
               | _ => none
           | _ => none
       | _ => none)
    | cs' => parseNum cs'

/-- Model of `JSON.parse`: parse one value and require only whitespace after
it; any failure models the `JSON.parse` exception as `none`. -/
def jsonParse (s : String) : Option Json :=
  match parseVal (s.length + 1) s.data with
  | some (v, rest) => if skipWs rest = [] then some v else none
  | none => none

/-! ## Text extraction (src/server.js lines 312-342) -/

/-- Embedding of `extractTextFromMessage(msg)`: first a string `text` field,
then a string `content` field, then `message.text`.  Non-objects (including
`null` and arrays) yield no text, exactly as the guarded property accesses
do in the source. -/
def extractTextFromMessage (msg : Json) : Option String :=
  match msg with
  | .obj _ =>
    match msg.getField "text" with
    | some (.str t) => some t
    | _ =>
      match msg.getField "content" with
      | some (.str t) => some t
      | _ =>
        match msg.getField "message" with
        | some m =>
          match m.getField "text" with
          | some (.str t) => some t
          | _ => none
        | none => none
  | _ => none

/-- First backwards scan of `extractBestTextFromEvent`: walk the message list
from the end (the argument is the reversed list), skipping messages with no
text, empty text (falsy in the source's `if (!t) continue`), and texts that
trim-equal the echoed prompt when the prompt echo is non-empty. -/
def findTextSkippingEcho (promptEcho : String) : List Json → Option String
  | [] => none
  | m :: rest =>
    match extractTextFromMessage m with
    | some t =>
      if t = "" then findTextSkippingEcho promptEcho rest
      else if promptEcho ≠ "" ∧ jsTrim t = jsTrim promptEcho then
        findTextSkippingEcho promptEcho rest
      else some t
    | none => findTextSkippingEcho promptEcho rest

/-- Second backwards scan: the last message (in the reversed argument, the
first) with a non-empty text, regardless of the prompt echo. -/
def findAnyText : List Json → Option String
  | [] => none
  | m :: rest =>
    match extractTextFromMessage m with
    | some t => if t = "" then findAnyText rest else some t
    | none => findAnyText rest

/-- Embedding of `extractBestTextFromEvent(obj, promptEcho)`: prefer the last
message of `obj.messages` whose text does not trim-equal the echoed prompt,
fall back to the last message with any non-empty text, and finally fall back
to the wrapped list `obj.value.messages`. -/
def extractBestTextFromEvent (obj : Json) (promptEcho : String) : Option String :=
  let primary :=
    match obj.getField "messages" with
    | some (.arr msgs) =>
      match findTextSkippingEcho promptEcho msgs.reverse with
      | some t => some t
      | none => findAnyText msgs.reverse
    | _ => none
  match primary with
  | some t => some t
  | none =>
    match (obj.getField "value").bind (fun v => v.getField "messages") with
    | some (.arr ws) => findAnyText ws.reverse
    | _ => none

/-! ## Diagnostic ring buffer (src/server.js lines 147-154) -/

/-- One entry of the `debug:last_events` ring buffer, as pushed by the stream
loop: the stored JSON object carries the request correlation id, the upstream
conversation id and the first 400 characters of the parsed payload. -/
structure DebugEntry where
  requestId : String
  conversationId : String
  sample : String
deriving DecidableEq, Repr

/-- Embedding of `pushDebugEvent` with capacity `limit` (the configured
`DEBUG_EVENT_LIMIT`): `lpush` prepends the new entry (head = newest,
tail = oldest) and `ltrim key 0 (Math.max(0, limit - 1))` keeps the entries
with indices `0 .. (limit - 1)`, i.e. the first `(limit - 1) + 1` entries
(`Nat` subtraction models the `Math.max(0, ...)` clamp). -/
def pushDebugEvent (limit : Nat) (e : DebugEntry) (buf : List DebugEntry) : List DebugEntry :=
  (e :: buf).take ((limit - 1) + 1)

/-! ## SSE translation engine (src/server.js lines 591-689) -/

/-- One unit written to the caller's response: a `chat.completion.chunk`
with an optional `delta.content` and an optional `finish_reason` (`sendDelta`
writes `.chunk (some d) none`, the terminal chunk of `sendStop` is
`.chunk none (some "stop")`), or the `data: [DONE]` end-of-stream marker. -/
inductive StreamOut where
  | chunk (content : Option String) (finishReason : Option String)
  | doneMarker
deriving DecidableEq, Repr

/-- Mutable state of the streaming loop: the watermark `fullText`, the block
and JSON-failure counters, the debug ring buffer, and the chunks emitted so
far (in emission order). -/
structure EngineState where
  fullText : String
  blocks : Nat
  jsonFail : Nat
  debug : List DebugEntry
  outputs : List StreamOut
deriving DecidableEq, Repr

/-- Initial loop state (`fullText = ""`, counters zero, nothing emitted). -/
def initEngineState : EngineState :=
  { fullText := "", blocks := 0, jsonFail := 0, debug := [], outputs := [] }

/-- Embedding of the watermark update (src/server.js lines 672-677): if the
extracted text is a string strictly longer than the watermark, the suffix
beyond the watermark is the delta, the watermark advances, and a non-empty
delta is sent with `sendDelta`; otherwise nothing changes. -/
def applyText (st : EngineState) (text : Option String) : EngineState :=
  match text with
  | some t =>
    if st.fullText.length < t.length then
      let delta := jsSliceFrom t st.fullText.length
      let st1 := { st with fullText := t }
      if delta ≠ "" then
        { st1 with outputs := st1.outputs ++ [.chunk (some delta) none] }
      else st1
    else st
  | none => st

/-- Handling of one successfully parsed payload (src/server.js lines
666-677): push the debug sample (first 400 characters of the payload, tagged
with the request and conversation ids), then apply the watermark update to
the extracted best text.  The `obj.error` branch only logs. -/
def handleEvent (prompt reqId convId : String) (limit : Nat)
    (st : EngineState) (payload : String) (obj : Json) : EngineState :=
  let st1 := { st with
    debug := pushDebugEvent limit
      { requestId := reqId, conversationId := convId, sample := jsTake payload 400 }
      st.debug }
  applyText st1 (extractBestTextFromEvent obj prompt)

/-- Data lines of one SSE block (src/server.js lines 648-652): split on
newlines, trim line ends, keep the lines starting with `data:`, and strip
the prefix and leading whitespace. -/
def dataLinesOf (block : String) : List String :=
  (((jsSplitLines block).map jsTrimEnd).filter (fun l => jsStartsWith l "data:")).map
    (fun l => jsTrimStart (jsSliceFrom l 5))

/-- Candidate JSON payload of one SSE block (src/server.js line 655): the
data lines joined with newlines, trimmed. -/
def payloadOf (block : String) : String :=
  jsTrim (joinNewline (dataLinesOf block))

/-- Embedding of the per-block body of the stream loop (src/server.js lines
647-677), parameterised by the JSON parse function: count the block, skip
blocks without data lines or with an empty payload, count a parse failure
and skip on invalid JSON, otherwise handle the parsed event. -/
def processBlock (parse : String → Option Json) (prompt reqId convId : String)
    (limit : Nat) (st : EngineState) (block : String) : EngineState :=
  let st := { st with blocks := st.blocks + 1 }
  if (dataLinesOf block).isEmpty then st
  else
    let payload := payloadOf block
    if payload = "" then st
    else
      match parse payload with
      | none => { st with jsonFail := st.jsonFail + 1 }
      | some obj => handleEvent prompt reqId convId limit st payload obj

/-- Process a list of complete blocks in order (the inner `while` of the
stream loop visits them in exactly this order). -/
def processBlocks (parse : String → Option Json) (prompt reqId convId : String)
    (limit : Nat) (st : EngineState) (bs : List String) : EngineState :=
  bs.foldl (processBlock parse prompt reqId convId limit) st

/-- Character index of the first blank-line separator `"\n\n"` (JavaScript
`carry.indexOf("\n\n")`). -/
def sseSepIndex : List Char → Option Nat
  | '\n' :: '\n' :: _ => some 0
  | _ :: rest => (sseSepIndex rest).map (· + 1)
  | [] => none

/-- Embedding of the inner `while` of src/server.js lines 641-646: repeatedly
cut the carry at the first `"\n\n"`, yielding the complete blocks in order
and the remaining carry.  Each step removes at least two characters, so fuel
equal to the carry length always suffices. -/
def extractBlocksAux : Nat → List Char → List String × List Char
  | 0, carry => ([], carry)
  | fuel + 1, carry =>
    match sseSepIndex carry with
    | none => ([], carry)
    | some idx =>
      let block := String.mk (carry.take idx)
      let rest := carry.drop (idx + 2)
      let (bs, c) := extractBlocksAux fuel rest
      (block :: bs, c)

/-- One iteration of the outer read loop (src/server.js lines 634-679):
append the decoded bytes to the carry, extract every complete block, and
process the blocks in order. -/
def processRead (parse : String → Option Json) (prompt reqId convId : String)
    (limit : Nat) (acc : String × EngineState) (chunkText : String) :
    String × EngineState :=
  let carry := acc.1 ++ chunkText
  let (bs, rest) := extractBlocksAux carry.length carry.data
  (String.mk rest, processBlocks parse prompt reqId convId limit acc.2 bs)

/-- The whole read loop over a list of decoded upstream reads. -/
def runStreamLoop (parse : String → Option Json) (prompt reqId convId : String)
    (limit : Nat) (reads : List String) : String × EngineState :=
  reads.foldl (processRead parse prompt reqId convId limit) ("", initEngineState)

/-- The advisory delta sent when the stream produced no text and
`EMPTY_RESPONSE_HINT` is enabled (src/server.js line 685). -/
def emptyResponseHintText : String :=
  "\n（提示：上游未返回可解析的文本内容。请检查 Copilot 许可/权限，或访问 /debug/last-events 查看原始事件片段。）\n"

/-- The caller-visible outcome of the streaming phase: the chunks written to
the response, and whether `res.end()` was called. -/
structure StreamResult where
  outputs : List StreamOut
  closed : Bool
deriving DecidableEq, Repr

/-- Embedding of `sendStop` (src/server.js lines 617-629): write one chunk
with empty delta and `finish_reason: "stop"`, write `data: [DONE]`, and end
the response. -/
def sendStop (r : StreamResult) : StreamResult :=
  { outputs := r.outputs ++ [.chunk none (some "stop"), .doneMarker], closed := true }

/-- The engine state when control reaches the code after the `try/catch` of
the read loop.  `excAt = some k` models an exception (network reset, decode
failure) raised while reading the upstream byte stream after `k` reads were
fully processed: the `catch` swallows it, so the state is the one reached
after those reads; `excAt = none` is a normal end of stream. -/
def streamLoopFinalState (parse : String → Option Json) (prompt reqId convId : String)
    (limit : Nat) (reads : List String) (excAt : Option Nat) : EngineState :=
  (runStreamLoop parse prompt reqId convId limit
    (match excAt with | none => reads | some k => reads.take k)).2

/-- The advisory deltas sent after the loop (src/server.js lines 684-686):
one hint chunk when no text was observed and `EMPTY_RESPONSE_HINT` is on,
nothing otherwise. -/
def streamHintList (hintEnabled : Bool) (st : EngineState) : List StreamOut :=
  if st.fullText = "" ∧ hintEnabled = true then
    [.chunk (some emptyResponseHintText) none]
  else []

/-- Embedding of the whole streaming phase after the upstream request
succeeded (src/server.js lines 633-689): run the read loop (cut short by an
exception when `excAt = some k`, normal end of stream otherwise), send the
advisory delta if applicable, then run `sendStop` unconditionally. -/
def streamRespond (parse : String → Option Json) (prompt reqId convId : String)
    (limit : Nat) (hintEnabled : Bool) (reads : List String)
    (excAt : Option Nat) : StreamResult :=
  let st := streamLoopFinalState parse prompt reqId convId limit reads excAt
  sendStop { outputs := st.outputs ++ streamHintList hintEnabled st, closed := false }

/-- Character-list concatenation of the `delta.content` strings of the
emitted chunks, in emission order. -/
def concatDeltasL (outs : List StreamOut) : List Char :=
  outs.foldr
    (fun o acc =>
      match o with
      | .chunk (some d) _ => d.data ++ acc
      | _ => acc) []

/-- Concatenation of the `delta.content` strings of the emitted chunks, in
emission order. -/
def concatDeltas (outs : List StreamOut) : String :=
  String.mk (concatDeltasL outs)

/-- Does a written unit carry `finish_reason: "stop"`? -/
def isStopChunk : StreamOut → Bool
  | .chunk _ (some r) => r == "stop"
  | _ => false

/-- Fold of `handleEvent` over a list of already parsed events (payload
sample and parsed JSON value), from the initial loop state: exactly how the
stream loop treats the successfully parsed blocks, in order. -/
def runEvents (prompt reqId convId : String) (limit : Nat)
    (evs : List (String × Json)) : EngineState :=
  evs.foldl (fun st pe => handleEvent prompt reqId convId limit st pe.1 pe.2)
    initEngineState

/-! ## Model-name normalization (src/server.js lines 286-292) -/

/-- Embedding of `normalizeMode(model)`: `model || "auto"` treats an absent
model and the empty string (falsy) as `"auto"`, the result is lowercased,
the two `gpt-5.2-*` aliases map to their modes, a bare mode name maps to
itself, and everything else maps to `"auto"`. -/
def normalizeMode (model : Option String) : String :=
  let m := jsToLowerCase (match model with
    | none => "auto"
    | some s => if s = "" then "auto" else s)
  if m = "gpt-5.2-fast" then "fast"
  else if m = "gpt-5.2-deep" then "deep"
  else if m = "auto" ∨ m = "fast" ∨ m = "deep" then m
  else "auto"

/-! ## Credential store and account resolution (src/server.js lines 190-199,
443-448, 556-570) -/

/-- An MSAL account as the gateway stores it (only `homeAccountId` is ever
inspected by the embedded code paths). -/
structure JsAccount where
  homeAccountId : String
deriving DecidableEq, Repr

/-- The Redis-backed state the embedded routes read and write, one
association list per key family.  A write prepends its binding and a read
takes the first binding, so a write overwrites (`redis.set`). -/
structure GatewayStore where
  msalCache : List (String × String)
  accounts : List (String × JsAccount)
  userKeys : List (String × String)
deriving DecidableEq, Repr

/-- Embedding of `getAccountByUserKey(userKey)`: a falsy (empty) key resolves
to nothing; otherwise look up `userkey:<key>` for the home account id, then
`account:<home>` for the account. -/
def getAccountByUserKey (store : GatewayStore) (userKey : String) : Option JsAccount :=
  if userKey = "" then none
  else
    match store.userKeys.lookup userKey with
    | none => none
    | some home => store.accounts.lookup home

/-- The parts of an inbound `/v1/chat/completions` request that account
resolution reads: the `X-User-Key` header (absent, or a single string) and
the session's account, if any. -/
structure ChatRequest where
  xUserKey : Option String
  sessionAccount : Option JsAccount
deriving DecidableEq, Repr

/-- A resolved user context (`{type:"userkey"}` or `{type:"session"}`). -/
inductive UserContext where
  | userkey (k : String)
  | session (a : JsAccount)
deriving DecidableEq, Repr

/-- Embedding of `getUserContext(req)`: a string `X-User-Key` header longer
than 10 characters wins; otherwise a session whose account has a truthy
(non-empty) `homeAccountId`; otherwise null. -/
def getUserContext (req : ChatRequest) : Option UserContext :=
  match req.xUserKey with
  | some k =>
    if 10 < k.length then some (.userkey k)
    else
      match req.sessionAccount with
      | some a => if a.homeAccountId ≠ "" then some (.session a) else none
      | none => none
  | none =>
    match req.sessionAccount with
    | some a => if a.homeAccountId ≠ "" then some (.session a) else none
    | none => none

/-- Outcome of the authentication branch of `app.post("/v1/chat/completions")`:
either a resolved account, or the 401 response with its message. -/
inductive AuthResult where
  | ok (account : JsAccount)
  | unauthorized (message : String)
deriving DecidableEq, Repr

/-- Embedding of src/server.js lines 556-570: no context is a 401; a session
context uses the session account directly; a user-key context resolves
through the credential store and a miss is a 401. -/
def chatCompletionsAuth (store : GatewayStore) (req : ChatRequest) : AuthResult :=
  match getUserContext req with
  | none => .unauthorized "No user context. Use X-User-Key."
  | some (.session a) => .ok a
  | some (.userkey k) =>
    match getAccountByUserKey store k with
    | none => .unauthorized "Invalid X-User-Key or expired."
    | some a => .ok a

/-! ## Token acquisition (src/server.js lines 190-193 and 201-209) -/

/-- The Redis key holding the serialized MSAL token cache of one account. -/
def msalCacheKey (homeAccountId : String) : String :=
  "msal:" ++ homeAccountId

/-- Model of `msal.acquireTokenSilent` together with the token cache: given
the serialized cache state that is current when the call is made and the
account, the identity provider either throws or returns the access token and
the serialized cache state after the call (silent refresh may rotate
tokens, so the state may differ). -/
structure MsalEnv where
  silent : String → JsAccount → Except String (String × String)

/-- First half of `acquireAccessToken({account})`: load the cached blob for
the account (`loadMsalCache`) and deserialize it into the MSAL cache if it
is truthy; otherwise the in-process cache state `msalState` stays current. -/
def msalLoadedState (msalState : String) (store : GatewayStore) (account : JsAccount) : String :=
  match store.msalCache.lookup (msalCacheKey account.homeAccountId) with
  | some c => if c ≠ "" then c else msalState
  | none => msalState

/-- Embedding of `acquireAccessToken({account})` continued: with the cache
state loaded by `msalLoadedState`, call `acquireTokenSilent`, persist the
serialized cache (`saveMsalCache`), and only then return the access token.
The success value carries the token, the serialized cache that was
persisted, and the store after the persist. -/
def acquireAccessToken (env : MsalEnv) (msalState : String) (store : GatewayStore)
    (account : JsAccount) : Except String (String × String × GatewayStore) :=
  match env.silent (msalLoadedState msalState store account) account with
  | .error e => .error e
  | .ok (tok, st2) =>
    .ok (tok, st2,
      { store with msalCache := (msalCacheKey account.homeAccountId, st2) :: store.msalCache })

/-! ## Device-code onboarding (src/server.js lines 451-512) -/

/-- A `devtx:<txId>` transaction record.  The `|| { txId }` fallback of the
completion and error paths is a record with every optional field absent. -/
structure DeviceInfo where
  txId : String
  status : String
  createdAt : Option Nat
  user_code : Option String
  verification_uri : Option String
  message : Option String
  expires_in : Option Nat
  interval : Option Nat
  user_key : Option String
  error : Option String
  completedAt : Option Nat
deriving DecidableEq, Repr

/-- The fields of the MSAL device-code callback response that the gateway
stores. -/
structure DeviceCodeResponse where
  userCode : String
  verificationUri : String
  message : String
  expiresIn : Nat
  interval : Nat
deriving DecidableEq, Repr

/-- The device-transaction store (`devtx:*`), modelled like the other key
families. -/
def DevtxStore : Type := List (String × DeviceInfo)

/-- The Redis key of one device transaction. -/
def devtxKey (txId : String) : String :=
  "devtx:" ++ txId

/-- The pending record the device-code callback persists (src/server.js
lines 463-472). -/
def pendingDeviceInfo (txId : String) (createdAt : Nat) (r : DeviceCodeResponse) : DeviceInfo where
  txId := txId
  status := "pending"
  createdAt := some createdAt
  user_code := some r.userCode
  verification_uri := some r.verificationUri
  message := some r.message
  expires_in := some r.expiresIn
  interval := some r.interval
  user_key := none
  error := none
  completedAt := none

/-- The completed record: the pending record marked `complete` and carrying
the minted user key (src/server.js lines 488-492). -/
def completedDeviceInfo (txId : String) (createdAt : Nat) (r : DeviceCodeResponse)
    (userKey : String) (completedAt : Nat) : DeviceInfo :=
  { pendingDeviceInfo txId createdAt r with
    status := "complete",
    user_key := some userKey,
    completedAt := some completedAt }

/-- Embedding of the `deviceCodeCallback` of `app.post("/auth/device/start")`
(src/server.js lines 462-476): persist the pending record carrying the user
code and verification URI; this is also the record the HTTP response
returns. -/
def deviceCodeCallbackWrite (store : DevtxStore) (txId : String) (createdAt : Nat)
    (r : DeviceCodeResponse) : DevtxStore :=
  (devtxKey txId, pendingDeviceInfo txId createdAt r) :: store

/-- Embedding of the background continuation after the provider completes the
device flow (src/server.js lines 479-494): persist the MSAL cache and the
account, bind a freshly minted user key to the account, then re-read the
transaction record (falling back to `{ txId }` if it expired), mark it
`complete` carrying the minted key, and persist it. -/
def deviceFlowComplete (store : GatewayStore) (devtx : DevtxStore) (txId : String)
    (account : JsAccount) (serializedCache : String) (userKey : String)
    (completedAt : Nat) : GatewayStore × DevtxStore :=
  let store :=
    { store with
      msalCache := (msalCacheKey account.homeAccountId, serializedCache) :: store.msalCache,
      accounts := ("account:" ++ account.homeAccountId, account) :: store.accounts,
      userKeys := (userKey, account.homeAccountId) :: store.userKeys }
  let done := (devtx.lookup (devtxKey txId)).getD
    { txId := txId, status := "", createdAt := none, user_code := none,
      verification_uri := none, message := none, expires_in := none,
      interval := none, user_key := none, error := none, completedAt := none }
  let done := { done with
    status := "complete",
    user_key := some userKey,
    completedAt := some completedAt }
  (store, (devtxKey txId, done) :: devtx)

/-- Result of `app.get("/auth/device/status/:txId")`: 404 when the record is
absent, otherwise the record as the JSON body. -/
inductive DeviceStatusResult where
  | notFound
  | ok (info : DeviceInfo)
deriving DecidableEq, Repr

/-- Embedding of the status poll endpoint: a pure read of `devtx:<txId>`. -/
def deviceStatusEndpoint (devtx : DevtxStore) (txId : String) : DeviceStatusResult :=
  match devtx.lookup (devtxKey txId) with
  | none => .notFound
  | some info => .ok info

/-! ## Concrete fixtures used by scenario theorems and witnesses -/

/-- A decoded upstream read consisting of one complete SSE block whose data
line is a Copilot event reporting the cumulative assistant text `t`. -/
def sseReadWithText (t : String) : String :=
  "data: \x7b\"messages\":[\x7b\"text\":\"" ++ t ++ "\"\x7d]\x7d\n\n"

/-- A parsed Copilot event whose message list reports the cumulative
assistant text `t`. -/
def jsonEventWithText (t : String) : Json :=
  .obj [("messages", .arr [.obj [("text", .str t)]])]

/-- A loop state whose watermark is `"Hi"` (used to exercise duplicate-event
idempotence at a concrete input). -/
def c2State : EngineState :=
  { initEngineState with fullText := "Hi" }

/-- A provider model whose silent acquisition always succeeds and rotates
the serialized cache by appending `"R"`. -/
def c8Env : MsalEnv :=
  ⟨fun st _ => .ok ("TOK", st ++ "R")⟩

/-- A credential store holding one serialized MSAL cache blob. -/
def c8Store : GatewayStore :=
  { msalCache := [("msal:h", "C")], accounts := [], userKeys := [] }

/-- The credential store after `acquireAccessToken` persisted the rotated
cache blob over `c8Store`. -/
def c8Store2 : GatewayStore :=
  { msalCache := [("msal:h", "CR"), ("msal:h", "C")], accounts := [], userKeys := [] }

/-! ## C1: the streaming scenario -/

/-- C1: for an upstream SSE byte stream whose successive parsed events report
the cumulative assistant texts `"Hi"`, `"Hi there"`, `"Hi there!"`, the
gateway emits exactly the delta chunks `"Hi"`, `" there"`, `"!"` in that
order, followed by exactly one chunk with `finish_reason: "stop"` and the
`data: [DONE]` end-of-stream marker, and the response is closed. -/
theorem c1_stream_scenario :
    streamRespond jsonParse "PROMPT" "req-1" "conv-1" 50 true
        [sseReadWithText "Hi", sseReadWithText "Hi there", sseReadWithText "Hi there!"]
        none
      = { outputs := [.chunk (some "Hi") none, .chunk (some " there") none,
            .chunk (some "!") none, .chunk none (some "stop"), .doneMarker],
          closed := true } := by
  decide

/-! ## C10: model-name normalization -/

/-- C10: `normalizeMode` is total and closed over the three modes: every
input (including an absent model) yields `"auto"`, `"fast"` or `"deep"`; the
`gpt-5.2-fast` / `gpt-5.2-deep` aliases map case-insensitively to their
modes; every other unrecognized model name maps to `"auto"`. -/
theorem c10_normalize_mode_total (mo : Option String) :
    (normalizeMode mo = "auto" ∨ normalizeMode mo = "fast" ∨ normalizeMode mo = "deep")
    ∧ (∀ s, mo = some s → jsToLowerCase s = "gpt-5.2-fast" → normalizeMode mo = "fast")
    ∧ (∀ s, mo = some s → jsToLowerCase s = "gpt-5.2-deep" → normalizeMode mo = "deep")
    ∧ (∀ s, mo = some s →
        jsToLowerCase s ∉ (["gpt-5.2-fast", "gpt-5.2-deep", "auto", "fast", "deep"] : List String) →
        normalizeMode mo = "auto")
    ∧ normalizeMode none = "auto" := by
  refine ⟨?_, ?_, ?_, ?_, by decide⟩
  · cases mo with
    | none => decide
    | some s =>
      by_cases hse : s = ""
      · subst hse; decide
      · simp only [normalizeMode, if_neg hse]
        split_ifs with h1 h2 h3
        · exact Or.inr (Or.inl rfl)
        · exact Or.inr (Or.inr rfl)
        · rcases h3 with h | h | h <;> simp [h]
        · exact Or.inl rfl
  · intro s hs hlow
    subst hs
    have hse : s ≠ "" := by
      intro h; subst h; simp [jsToLowerCase] at hlow
    simp [normalizeMode, if_neg hse, hlow]
  · intro s hs hlow
    subst hs
    have hse : s ≠ "" := by
      intro h; subst h; simp [jsToLowerCase] at hlow
    simp [normalizeMode, if_neg hse, hlow]
  · intro s hs hnot
    subst hs
    by_cases hse : s = ""
    · subst hse; decide
    · simp only [List.mem_cons, List.mem_singleton, not_or] at hnot
      obtain ⟨h1, h2, h3, h4, h5⟩ := hnot
      simp [normalizeMode, if_neg hse, h1, h2, h3, h4, h5]

/-- Witness for C10 at concrete inputs: the alias maps case-insensitively and
an unrecognized name maps to `"auto"`. -/
theorem c10_normalize_mode_total_witness :
    normalizeMode (some "GPT-5.2-FAST") = "fast"
    ∧ normalizeMode (some "gpt-4o") = "auto" :=
  ⟨(c10_normalize_mode_total (some "GPT-5.2-FAST")).2.1 "GPT-5.2-FAST" rfl (by decide),
   (c10_normalize_mode_total (some "gpt-4o")).2.2.2.1 "gpt-4o" rfl (by decide)⟩

/-! ## C9: device-flow start and status polling -/

/-- C9: polling the status endpoint while a device transaction is pending
returns the pending record carrying the user code and verification URI, and
polling after the background continuation completed the flow returns a
record with status `"complete"` carrying the newly minted user key. -/
theorem c9_device_flow_status (store : GatewayStore) (devtx : DevtxStore)
    (txId : String) (createdAt : Nat) (r : DeviceCodeResponse)
    (account : JsAccount) (blob userKey : String) (completedAt : Nat) :
    (∃ info, deviceStatusEndpoint (deviceCodeCallbackWrite devtx txId createdAt r) txId
        = .ok info
      ∧ info.status = "pending"
      ∧ info.user_code = some r.userCode
      ∧ info.verification_uri = some r.verificationUri)
    ∧ (∃ info, deviceStatusEndpoint
          ((deviceFlowComplete store (deviceCodeCallbackWrite devtx txId createdAt r)
              txId account blob userKey completedAt).2) txId
        = .ok info
      ∧ info.status = "complete"
      ∧ info.user_key = some userKey) := by
  constructor
  · refine ⟨pendingDeviceInfo txId createdAt r, ?_, rfl, rfl, rfl⟩
    simp [deviceStatusEndpoint, deviceCodeCallbackWrite, List.lookup]
  · refine ⟨completedDeviceInfo txId createdAt r userKey completedAt, ?_, rfl, rfl⟩
    simp [deviceStatusEndpoint, deviceFlowComplete, deviceCodeCallbackWrite,
      completedDeviceInfo, List.lookup]

/-! ## C7: account resolution on /v1/chat/completions -/

/-- C7 counterexample: the claim says a malformed caller key (at most 10
characters) always yields a 401, but when a session is also present the code
falls back to the session and succeeds: with key `"short"` (length 5, below
the threshold) and a live session account, the endpoint resolves the session
account instead of failing. -/
theorem c7_counterexample :
    ("short" : String).length ≤ 10
    ∧ chatCompletionsAuth { msalCache := [], accounts := [], userKeys := [] }
        { xUserKey := some "short", sessionAccount := some { homeAccountId := "home-1" } }
      = .ok { homeAccountId := "home-1" } := by
  decide

/-- C7 amended: an explicitly supplied well-formed key (more than 10
characters) takes priority over a session, and the endpoint returns 401
whenever no usable context is present (no key or a malformed key, and no
truthy session) or a well-formed key does not resolve to a stored account;
a malformed key with a live session falls back to the session instead of
failing. -/
theorem c7_auth_resolution (store : GatewayStore) (req : ChatRequest) :
    (∀ k, req.xUserKey = some k → 10 < k.length →
      chatCompletionsAuth store req
        = (match getAccountByUserKey store k with
           | none => .unauthorized "Invalid X-User-Key or expired."
           | some a => .ok a))
    ∧ ((match req.xUserKey with | none => True | some k => k.length ≤ 10) →
       (match req.sessionAccount with | none => True | some a => a.homeAccountId = "") →
        chatCompletionsAuth store req = .unauthorized "No user context. Use X-User-Key.")
    ∧ (∀ k, req.xUserKey = some k → 10 < k.length → getAccountByUserKey store k = none →
        chatCompletionsAuth store req = .unauthorized "Invalid X-User-Key or expired.")
    ∧ (∀ k a, req.xUserKey = some k → k.length ≤ 10 →
        req.sessionAccount = some a → a.homeAccountId ≠ "" →
        chatCompletionsAuth store req = .ok a) := by
  refine ⟨?_, ?_, ?_, ?_⟩
  · intro k hk hlen
    simp [chatCompletionsAuth, getUserContext, hk, hlen]
  · intro h1 h2
    cases hk : req.xUserKey with
    | none =>
      cases hs : req.sessionAccount with
      | none => simp [chatCompletionsAuth, getUserContext, hk, hs]
      | some a =>
        rw [hs] at h2
        simp [chatCompletionsAuth, getUserContext, hk, hs, h2]
    | some k =>
      rw [hk] at h1
      have hlen : ¬ 10 < k.length := by omega
      cases hs : req.sessionAccount with
      | none => simp [chatCompletionsAuth, getUserContext, hk, hs, hlen]
      | some a =>
        rw [hs] at h2
        simp [chatCompletionsAuth, getUserContext, hk, hs, hlen, h2]
  · intro k hk hlen hnone
    simp [chatCompletionsAuth, getUserContext, hk, hlen, hnone]
  · intro k a hk hlen hs ha
    have hlen' : ¬ 10 < k.length := by omega
    simp [chatCompletionsAuth, getUserContext, hk, hs, hlen', ha]

/-- Witness for C7 amended at concrete inputs: a well-formed key wins over a
session and resolves through the store; a request with neither context is a
401; a well-formed unresolvable key is a 401. -/
theorem c7_auth_resolution_witness :
    chatCompletionsAuth
        { msalCache := [], accounts := [("home-2", { homeAccountId := "home-2" })],
          userKeys := [("kkkkkkkkkkk", "home-2")] }
        { xUserKey := some "kkkkkkkkkkk", sessionAccount := some { homeAccountId := "home-1" } }
      = (match getAccountByUserKey
            { msalCache := [], accounts := [("home-2", { homeAccountId := "home-2" })],
              userKeys := [("kkkkkkkkkkk", "home-2")] } "kkkkkkkkkkk" with
         | none => AuthResult.unauthorized "Invalid X-User-Key or expired."
         | some a => AuthResult.ok a)
    ∧ chatCompletionsAuth { msalCache := [], accounts := [], userKeys := [] }
        { xUserKey := none, sessionAccount := none }
      = .unauthorized "No user context. Use X-User-Key."
    ∧ chatCompletionsAuth { msalCache := [], accounts := [], userKeys := [] }
        { xUserKey := some "kkkkkkkkkkk", sessionAccount := none }
      = .unauthorized "Invalid X-User-Key or expired." :=
  ⟨(c7_auth_resolution _ _).1 "kkkkkkkkkkk" rfl (by decide),
   (c7_auth_resolution { msalCache := [], accounts := [], userKeys := [] }
      { xUserKey := none, sessionAccount := none }).2.1 trivial trivial,
   (c7_auth_resolution _ _).2.2.1 "kkkkkkkkkkk" rfl (by decide) (by decide)⟩

/-! ## C8: token acquisition persists the cache before returning -/

/-- C8: whenever `acquireAccessToken` succeeds, the serialized token-cache
material produced by the silent acquisition is persisted to the credential
store contained in the success value, i.e. the persist happens before the
access token is handed back to the caller. -/
theorem c8_token_cache_persisted (env : MsalEnv) (msalState : String)
    (store : GatewayStore) (account : JsAccount) (tok cache2 : String)
    (store2 : GatewayStore)
    (h : acquireAccessToken env msalState store account = .ok (tok, cache2, store2)) :
    store2.msalCache.lookup (msalCacheKey account.homeAccountId) = some cache2 := by
  unfold acquireAccessToken at h
  split at h
  · exact absurd h (by simp)
  · simp only [Except.ok.injEq, Prod.mk.injEq] at h
    obtain ⟨rfl, rfl, rfl⟩ := h
    simp [List.lookup]

/-- Witness for C8: acquiring for account `h` over `c8Store` rotates the
cached blob `"C"` to `"CR"` and the returned store holds it. -/
theorem c8_token_cache_persisted_witness :
    c8Store2.msalCache.lookup (msalCacheKey "h") = some "CR" :=
  c8_token_cache_persisted c8Env "" c8Store { homeAccountId := "h" } "TOK" "CR" c8Store2 rfl

/-! ## C2: idempotence of the watermark-delta update -/

/-- C2: processing an event whose extracted cumulative text equals the
current watermark emits no delta chunk and leaves the watermark unchanged;
consequently replaying the same event immediately after it was processed
once adds no further output and moves no watermark, so a duplicated event
yields a non-empty delta at most once. -/
theorem c2_watermark_idempotent (prompt reqId convId : String) (limit : Nat)
    (st : EngineState) (payload : String) (obj : Json)
    (h : extractBestTextFromEvent obj prompt = some st.fullText) :
    ((handleEvent prompt reqId convId limit st payload obj).outputs = st.outputs
      ∧ (handleEvent prompt reqId convId limit st payload obj).fullText = st.fullText)
    ∧ ((handleEvent prompt reqId convId limit
          (handleEvent prompt reqId convId limit st payload obj) payload obj).outputs
        = (handleEvent prompt reqId convId limit st payload obj).outputs
      ∧ (handleEvent prompt reqId convId limit
          (handleEvent prompt reqId convId limit st payload obj) payload obj).fullText
        = (handleEvent prompt reqId convId limit st payload obj).fullText) := by
  have h1 : (handleEvent prompt reqId convId limit st payload obj).outputs = st.outputs
      ∧ (handleEvent prompt reqId convId limit st payload obj).fullText = st.fullText := by
    constructor <;> simp [handleEvent, applyText, h]
  refine ⟨h1, ?_, ?_⟩ <;> simp [handleEvent, applyText, h, h1.2]

/-- Witness for C2: with watermark `"Hi"` and an event reporting `"Hi"`, no
output is added and the watermark stays `"Hi"`. -/
theorem c2_watermark_idempotent_witness :
    (((handleEvent "PROMPT" "r" "c" 50 c2State "p" (jsonEventWithText "Hi")).outputs
        = c2State.outputs
      ∧ (handleEvent "PROMPT" "r" "c" 50 c2State "p" (jsonEventWithText "Hi")).fullText
        = c2State.fullText))
    ∧ (((handleEvent "PROMPT" "r" "c" 50
          (handleEvent "PROMPT" "r" "c" 50 c2State "p" (jsonEventWithText "Hi")) "p"
          (jsonEventWithText "Hi")).outputs
        = (handleEvent "PROMPT" "r" "c" 50 c2State "p" (jsonEventWithText "Hi")).outputs
      ∧ (handleEvent "PROMPT" "r" "c" 50
          (handleEvent "PROMPT" "r" "c" 50 c2State "p" (jsonEventWithText "Hi")) "p"
          (jsonEventWithText "Hi")).fullText
        = (handleEvent "PROMPT" "r" "c" 50 c2State "p" (jsonEventWithText "Hi")).fullText)) :=
  c2_watermark_idempotent "PROMPT" "r" "c" 50 c2State "p" (jsonEventWithText "Hi") (by decide)

/-! ## C6: the diagnostic ring buffer -/

/-- C6: with a positive configured capacity, the ring buffer never exceeds
the capacity after any sequence of appends; an append to a full buffer
evicts exactly the oldest entry (the tail of the newest-first list); and the
stream loop appends one entry per successfully parsed payload, tagged with
the request correlation id, regardless of whether the event yielded a
delta. -/
theorem c6_ring_buffer (limit : Nat) (hpos : 1 ≤ limit) :
    (∀ (es : List DebugEntry) (buf : List DebugEntry), buf.length ≤ limit →
        (es.foldl (fun b e => pushDebugEvent limit e b) buf).length ≤ limit)
    ∧ (∀ (e : DebugEntry) (buf : List DebugEntry), buf.length = limit →
        pushDebugEvent limit e buf = e :: buf.dropLast)
    ∧ (∀ (prompt reqId convId payload : String) (st : EngineState) (obj : Json),
        (handleEvent prompt reqId convId limit st payload obj).debug
          = pushDebugEvent limit
              { requestId := reqId, conversationId := convId, sample := jsTake payload 400 }
              st.debug) := by
  have hsucc : limit - 1 + 1 = limit := by omega
  refine ⟨?_, ?_, ?_⟩
  · intro es
    induction es with
    | nil => intro buf hb; exact hb
    | cons e es ih =>
      intro buf hb
      refine ih _ ?_
      calc (pushDebugEvent limit e buf).length ≤ limit - 1 + 1 :=
            List.length_take_le (limit - 1 + 1) (e :: buf)
        _ = limit := hsucc
  · intro e buf hb
    rw [pushDebugEvent, List.take_succ_cons, List.dropLast_eq_take, hb]
  · intro prompt reqId convId payload st obj
    cases hx : extractBestTextFromEvent obj prompt with
    | none => simp [handleEvent, applyText, hx]
    | some t =>
      simp only [handleEvent, applyText, hx]
      split_ifs <;> rfl

/-- Witness for C6 at capacity 2: three appends stay within capacity, and an
append to a full buffer keeps the newest two entries. -/
theorem c6_ring_buffer_witness :
    (([⟨"r", "c", "a"⟩, ⟨"r", "c", "b"⟩, ⟨"r", "c", "d"⟩] : List DebugEntry).foldl
        (fun b e => pushDebugEvent 2 e b) []).length ≤ 2
    ∧ pushDebugEvent 2 ⟨"r", "c", "x"⟩ [⟨"r", "c", "y"⟩, ⟨"r", "c", "z"⟩]
        = ⟨"r", "c", "x"⟩ :: ([⟨"r", "c", "y"⟩, ⟨"r", "c", "z"⟩] : List DebugEntry).dropLast :=
  ⟨(c6_ring_buffer 2 (by decide)).1 _ [] (by decide),
   (c6_ring_buffer 2 (by decide)).2.1 _ _ (by decide)⟩

/-! ## C4: malformed blocks are counted and skipped, never fatal -/

/-- C4: a complete SSE block whose joined data-line payload is non-empty but
fails to parse as JSON increments the parse-failure counter by exactly one,
emits no chunk and changes nothing else; and in a stream of blocks the
blocks after the malformed one are processed exactly as if the malformed
block had only bumped the counters. -/
theorem c4_malformed_block (parse : String → Option Json)
    (prompt reqId convId : String) (limit : Nat) (st : EngineState)
    (block : String) (pre post : List String)
    (hpay : payloadOf block ≠ "") (hparse : parse (payloadOf block) = none) :
    processBlock parse prompt reqId convId limit st block
      = { st with blocks := st.blocks + 1, jsonFail := st.jsonFail + 1 }
    ∧ processBlocks parse prompt reqId convId limit st (pre ++ block :: post)
      = processBlocks parse prompt reqId convId limit
          { processBlocks parse prompt reqId convId limit st pre with
            blocks := (processBlocks parse prompt reqId convId limit st pre).blocks + 1,
            jsonFail := (processBlocks parse prompt reqId convId limit st pre).jsonFail + 1 }
          post := by
  have hstep : ∀ s : EngineState, processBlock parse prompt reqId convId limit s block
      = { s with blocks := s.blocks + 1, jsonFail := s.jsonFail + 1 } := by
    intro s
    have hdl : ¬ (dataLinesOf block).isEmpty = true := by
      intro hdl
      apply hpay
      rw [payloadOf, List.isEmpty_iff.mp hdl]
      rfl
    simp [processBlock, hdl, hpay, hparse]
  refine ⟨hstep st, ?_⟩
  rw [processBlocks, List.foldl_append, List.foldl_cons, hstep]
  rfl

/-- Witness for C4: the block `"data: nope"` has the non-empty payload
`"nope"`, which `jsonParse` rejects; processing it from the initial state
only bumps the two counters. -/
theorem c4_malformed_block_witness :
    processBlock jsonParse "P" "r" "c" 50 initEngineState "data: nope"
      = { initEngineState with
          blocks := initEngineState.blocks + 1,
          jsonFail := initEngineState.jsonFail + 1 }
    ∧ processBlocks jsonParse "P" "r" "c" 50 initEngineState ([] ++ "data: nope" :: [])
      = processBlocks jsonParse "P" "r" "c" 50
          { processBlocks jsonParse "P" "r" "c" 50 initEngineState [] with
            blocks := (processBlocks jsonParse "P" "r" "c" 50 initEngineState []).blocks + 1,
            jsonFail := (processBlocks jsonParse "P" "r" "c" 50 initEngineState []).jsonFail + 1 }
          [] :=
  c4_malformed_block jsonParse "P" "r" "c" 50 initEngineState "data: nope" [] []
    (by decide) rfl

/-! ## C5: the terminal sequence is always sent -/

/-- One watermark update only ever appends delta chunks (with
`finish_reason: null`) to the outputs. -/
theorem applyText_outputs_extend (st : EngineState) (x : Option String) :
    ∃ ext, (applyText st x).outputs = st.outputs ++ ext
      ∧ ∀ o ∈ ext, ∃ d, o = StreamOut.chunk (some d) none := by
  cases x with
  | none => exact ⟨[], by simp [applyText], by simp⟩
  | some t =>
    by_cases hlt : st.fullText.length < t.length
    · by_cases hd : jsSliceFrom t st.fullText.length = ""
      · exact ⟨[], by simp [applyText, hlt, hd], by simp⟩
      · refine ⟨[.chunk (some (jsSliceFrom t st.fullText.length)) none], ?_, ?_⟩
        · simp [applyText, hlt, hd]
        · intro o ho
          simp only [List.mem_singleton] at ho
          exact ⟨_, ho⟩
    · exact ⟨[], by simp [applyText, hlt], by simp⟩

/-- Handling one parsed event only ever appends delta chunks. -/
theorem handleEvent_outputs_extend (prompt reqId convId : String) (limit : Nat)
    (st : EngineState) (payload : String) (obj : Json) :
    ∃ ext, (handleEvent prompt reqId convId limit st payload obj).outputs
        = st.outputs ++ ext
      ∧ ∀ o ∈ ext, ∃ d, o = StreamOut.chunk (some d) none := by
  unfold handleEvent
  exact applyText_outputs_extend _ _

/-- Processing one SSE block only ever appends delta chunks. -/
theorem processBlock_outputs_extend (parse : String → Option Json)
    (prompt reqId convId : String) (limit : Nat) (st : EngineState) (block : String) :
    ∃ ext, (processBlock parse prompt reqId convId limit st block).outputs
        = st.outputs ++ ext
      ∧ ∀ o ∈ ext, ∃ d, o = StreamOut.chunk (some d) none := by
  by_cases h1 : (dataLinesOf block).isEmpty = true
  · exact ⟨[], by simp [processBlock, h1], by simp⟩
  · by_cases h2 : payloadOf block = ""
    · exact ⟨[], by simp [processBlock, h1, h2], by simp⟩
    · cases hp : parse (payloadOf block) with
      | none => exact ⟨[], by simp [processBlock, h1, h2, hp], by simp⟩
      | some obj =>
        obtain ⟨ext, he, hd⟩ := handleEvent_outputs_extend prompt reqId convId limit
          { st with blocks := st.blocks + 1 } (payloadOf block) obj
        refine ⟨ext, ?_, hd⟩
        simpa [processBlock, h1, h2, hp] using he

/-- Processing a list of SSE blocks only ever appends delta chunks. -/
theorem processBlocks_outputs_extend (parse : String → Option Json)
    (prompt reqId convId : String) (limit : Nat) :
    ∀ (bs : List String) (st : EngineState),
      ∃ ext, (processBlocks parse prompt reqId convId limit st bs).outputs
          = st.outputs ++ ext
        ∧ ∀ o ∈ ext, ∃ d, o = StreamOut.chunk (some d) none := by
  intro bs
  induction bs with
  | nil => exact fun st => ⟨[], by simp [processBlocks], by simp⟩
  | cons b bs ih =>
    intro st
    obtain ⟨e1, h1, hd1⟩ := processBlock_outputs_extend parse prompt reqId convId limit st b
    obtain ⟨e2, h2, hd2⟩ := ih (processBlock parse prompt reqId convId limit st b)
    refine ⟨e1 ++ e2, ?_, ?_⟩
    · rw [processBlocks] at h2 ⊢
      rw [List.foldl_cons, h2, h1, List.append_assoc]
    · intro o ho
      rcases List.mem_append.mp ho with h | h
      exacts [hd1 o h, hd2 o h]

/-- The whole read loop only ever appends delta chunks to the outputs. -/
theorem streamLoop_outputs_extend (parse : String → Option Json)
    (prompt reqId convId : String) (limit : Nat) :
    ∀ (reads : List String) (acc : String × EngineState),
      ∃ ext, (reads.foldl (processRead parse prompt reqId convId limit) acc).2.outputs
          = acc.2.outputs ++ ext
        ∧ ∀ o ∈ ext, ∃ d, o = StreamOut.chunk (some d) none := by
  intro reads
  induction reads with
  | nil => exact fun acc => ⟨[], by simp, by simp⟩
  | cons r reads ih =>
    intro acc
    obtain ⟨e1, h1, hd1⟩ := processBlocks_outputs_extend parse prompt reqId convId limit
      (extractBlocksAux (acc.1 ++ r).length (acc.1 ++ r).data).1 acc.2
    obtain ⟨e2, h2, hd2⟩ := ih (processRead parse prompt reqId convId limit acc r)
    refine ⟨e1 ++ e2, ?_, ?_⟩
    · rw [List.foldl_cons, h2]
      have hpr : (processRead parse prompt reqId convId limit acc r).2.outputs
          = acc.2.outputs ++ e1 := h1
      rw [hpr, List.append_assoc]
    · intro o ho
      rcases List.mem_append.mp ho with h | h
      exacts [hd1 o h, hd2 o h]

/-- C5: for every streaming request that reaches the stream-reading phase,
whether the upstream byte stream ends normally (`excAt = none`) or an
exception is raised while reading it (`excAt = some k`), the response is
closed and its outputs end with exactly one chunk carrying
`finish_reason: "stop"` followed by the `data: [DONE]` marker; everything
before that terminal pair is a plain delta chunk. -/
theorem c5_terminal_sequence (parse : String → Option Json)
    (prompt reqId convId : String) (limit : Nat) (hintEnabled : Bool)
    (reads : List String) (excAt : Option Nat) :
    (streamRespond parse prompt reqId convId limit hintEnabled reads excAt).closed = true
    ∧ (streamRespond parse prompt reqId convId limit hintEnabled reads excAt).outputs.countP
        isStopChunk = 1
    ∧ ∃ pre, (streamRespond parse prompt reqId convId limit hintEnabled reads excAt).outputs
        = pre ++ [.chunk none (some "stop"), .doneMarker]
      ∧ ∀ o ∈ pre, ∃ d, o = StreamOut.chunk (some d) none := by
  have hst : (streamLoopFinalState parse prompt reqId convId limit reads excAt).outputs
      = initEngineState.outputs ++
        (Classical.choose (streamLoop_outputs_extend parse prompt reqId convId limit
          (match excAt with | none => reads | some k => reads.take k) ("", initEngineState)))
      ∧ ∀ o ∈ Classical.choose (streamLoop_outputs_extend parse prompt reqId convId limit
          (match excAt with | none => reads | some k => reads.take k) ("", initEngineState)),
          ∃ d, o = StreamOut.chunk (some d) none :=
    Classical.choose_spec (streamLoop_outputs_extend parse prompt reqId convId limit
      (match excAt with | none => reads | some k => reads.take k) ("", initEngineState))
  set st := streamLoopFinalState parse prompt reqId convId limit reads excAt with hstdef
  have hall : ∀ o ∈ st.outputs ++ streamHintList hintEnabled st,
      ∃ d, o = StreamOut.chunk (some d) none := by
    intro o ho
    rcases List.mem_append.mp ho with h | h
    · rw [hst.1] at h
      simp only [initEngineState, List.nil_append] at h
      exact hst.2 o h
    · rw [streamHintList] at h
      split at h
      · simp only [List.mem_singleton] at h
        exact ⟨_, h⟩
      · simp at h
  refine ⟨rfl, ?_, ⟨st.outputs ++ streamHintList hintEnabled st, rfl, hall⟩⟩
  have houts : (streamRespond parse prompt reqId convId limit hintEnabled reads excAt).outputs
      = (st.outputs ++ streamHintList hintEnabled st)
        ++ [.chunk none (some "stop"), .doneMarker] := rfl
  rw [houts, List.countP_append]
  have hzero : (st.outputs ++ streamHintList hintEnabled st).countP isStopChunk = 0 := by
    rw [List.countP_eq_zero]
    intro o ho
    obtain ⟨d, rfl⟩ := hall o ho
    simp [isStopChunk]
  rw [hzero]
  rfl

/-! ## C3: concatenated deltas against the final cumulative text -/

/-- C3 counterexample: the claim only assumes the extracted cumulative texts
are non-decreasing in length.  With the texts `"ab"` then `"xyz"` (lengths
2 ≤ 3) the engine emits the deltas `"ab"` and `"z"`, whose concatenation
`"abz"` differs from the final cumulative text `"xyz"`: the watermark delta
is a positional suffix, so the equality needs each text to extend the
previous one, not merely to be at least as long. -/
theorem c3_counterexample :
    extractBestTextFromEvent (jsonEventWithText "ab") "PROMPT" = some "ab"
    ∧ extractBestTextFromEvent (jsonEventWithText "xyz") "PROMPT" = some "xyz"
    ∧ ("ab" : String).length ≤ ("xyz" : String).length
    ∧ (streamRespond jsonParse "PROMPT" "r" "c" 50 true
        [sseReadWithText "ab", sseReadWithText "xyz"] none).outputs
      = [.chunk (some "ab") none, .chunk (some "z") none,
         .chunk none (some "stop"), .doneMarker]
    ∧ concatDeltas [StreamOut.chunk (some "ab") none, .chunk (some "z") none,
         .chunk none (some "stop"), .doneMarker] = "abz"
    ∧ ("abz" : String) ≠ "xyz" := by
  decide

/-- Splitting the emitted-delta concatenation over an output append. -/
theorem concatDeltasL_append (l₁ l₂ : List StreamOut) :
    concatDeltasL (l₁ ++ l₂) = concatDeltasL l₁ ++ concatDeltasL l₂ := by
  induction l₁ with
  | nil => simp [concatDeltasL]
  | cons o l ih =>
    cases o with
    | chunk c f =>
      cases c with
      | none => simpa [concatDeltasL] using ih
      | some d =>
        simp only [concatDeltasL, List.cons_append, List.foldr_cons] at ih ⊢
        rw [ih, List.append_assoc]
    | doneMarker => simpa [concatDeltasL] using ih

/-- One watermark update under a prefix hypothesis: if the current watermark
is a prefix of the event text, the watermark becomes the event text and the
emitted-delta concatenation grows by exactly the suffix beyond the old
watermark. -/
theorem applyText_prefix_step (st : EngineState) (t : String)
    (hp : st.fullText.data <+: t.data) :
    (applyText st (some t)).fullText = t
    ∧ concatDeltasL (applyText st (some t)).outputs
      = concatDeltasL st.outputs ++ t.data.drop st.fullText.length := by
  by_cases hlt : st.fullText.length < t.length
  · have hd : jsSliceFrom t st.fullText.length ≠ "" := by
      intro h
      have hdata : t.data.drop st.fullText.length = [] := congrArg String.data h
      have hlen : t.data.length - st.fullText.length = 0 := by
        rw [← List.length_drop, hdata]; rfl
      have h1 : st.fullText.length = st.fullText.data.length := rfl
      have h2 : t.length = t.data.length := rfl
      omega
    constructor
    · simp [applyText, hlt, hd]
    · simp only [applyText]
      rw [if_pos hlt, if_pos hd]
      rw [concatDeltasL_append]
      simp [concatDeltasL, jsSliceFrom]
  · have hle : st.fullText.data.length ≤ t.data.length := hp.length_le
    have hlen : st.fullText.data.length = t.data.length := by
      have h1 : st.fullText.length = st.fullText.data.length := rfl
      have h2 : t.length = t.data.length := rfl
      omega
    have heq : st.fullText.data = t.data := hp.eq_of_length hlen
    have heqs : st.fullText = t := congrArg String.mk heq
    constructor
    · simp [applyText, hlt, heqs]
    · have hnil : t.data.drop st.fullText.length = [] := by
        have : st.fullText.length = t.data.length := hlen
        rw [this, List.drop_length]
      simp [applyText, hlt, hnil]

/-- Along a prefix chain, the first element is a prefix of the last. -/
theorem chain_last_prefix (ts : List String) (t : String)
    (h : List.Chain (fun a b => a.data <+: b.data) t ts) :
    t.data <+: (ts.getLastD t).data := by
  induction ts generalizing t with
  | nil => exact List.prefix_refl _
  | cons u ts ih =>
    rw [List.chain_cons] at h
    rw [List.getLastD_cons]
    exact h.1.trans (ih u h.2)

/-- Composing two positional suffixes along a two-step prefix chain. -/
theorem drop_prefix_chain_append (a u v : List Char) :
    (a ++ u).drop a.length ++ ((a ++ u) ++ v).drop (a ++ u).length
      = ((a ++ u) ++ v).drop a.length := by
  rw [List.drop_left, List.drop_left, List.append_assoc, List.drop_left]

/-- Folding the watermark update over a prefix chain of texts: the watermark
ends at the last text and the emitted-delta concatenation grows by exactly
the suffix of the last text beyond the initial watermark. -/
theorem textFold_chain (ts : List String) : ∀ (st : EngineState),
    List.Chain (fun a b => a.data <+: b.data) st.fullText ts →
    (ts.foldl (fun s t => applyText s (some t)) st).fullText = ts.getLastD st.fullText
    ∧ concatDeltasL (ts.foldl (fun s t => applyText s (some t)) st).outputs
      = concatDeltasL st.outputs ++ (ts.getLastD st.fullText).data.drop st.fullText.length := by
  induction ts with
  | nil =>
    intro st _
    refine ⟨rfl, ?_⟩
    have hnil : st.fullText.data.drop st.fullText.length = [] := List.drop_length _
    simp [List.getLastD, hnil]
  | cons t ts ih =>
    intro st h
    rw [List.chain_cons] at h
    obtain ⟨hp, hch⟩ := h
    obtain ⟨hft, hout⟩ := applyText_prefix_step st t hp
    have hch' : List.Chain (fun a b => a.data <+: b.data)
        (applyText st (some t)).fullText ts := by
      rw [hft]; exact hch
    obtain ⟨ih1, ih2⟩ := ih (applyText st (some t)) hch'
    rw [List.foldl_cons]
    refine ⟨by rw [ih1, hft, List.getLastD_cons], ?_⟩
    rw [ih2, hout, hft, List.getLastD_cons, List.append_assoc]
    congr 1
    have hpl : t.data <+: (ts.getLastD t).data := chain_last_prefix ts t hch
    obtain ⟨u, hu⟩ := hp
    obtain ⟨v, hv⟩ := hpl
    have hn : st.fullText.length = st.fullText.data.length := rfl
    have ht : t.length = t.data.length := rfl
    rw [hn, ht, ← hv, ← hu]
    exact drop_prefix_chain_append st.fullText.data u v

/-- The watermark update reads and writes only the watermark and the
outputs, so it is a congruence for those two fields. -/
theorem applyText_congr (st₁ st₂ : EngineState) (x : Option String)
    (hf : st₁.fullText = st₂.fullText) (ho : st₁.outputs = st₂.outputs) :
    (applyText st₁ x).fullText = (applyText st₂ x).fullText
    ∧ (applyText st₁ x).outputs = (applyText st₂ x).outputs := by
  cases x with
  | none => exact ⟨hf, ho⟩
  | some t =>
    by_cases hlt : st₂.fullText.length < t.length
    · by_cases hd : jsSliceFrom t st₂.fullText.length = ""
      · constructor <;> simp [applyText, hf, ho, hlt, hd]
      · constructor <;> simp [applyText, hf, ho, hlt, hd]
    · constructor <;> simp [applyText, hf, ho, hlt]

/-- Folding `handleEvent` over events whose extractions are exactly the
texts `ts` acts on the watermark and the outputs like folding the watermark
update over `ts`. -/
theorem handleEvent_fold_eq_textFold (prompt reqId convId : String) (limit : Nat) :
    ∀ (evs : List (String × Json)) (ts : List String) (st₁ st₂ : EngineState),
      evs.map (fun pe => extractBestTextFromEvent pe.2 prompt) = ts.map some →
      st₁.fullText = st₂.fullText → st₁.outputs = st₂.outputs →
      (evs.foldl (fun st pe => handleEvent prompt reqId convId limit st pe.1 pe.2) st₁).fullText
        = (ts.foldl (fun s t => applyText s (some t)) st₂).fullText
      ∧ (evs.foldl (fun st pe => handleEvent prompt reqId convId limit st pe.1 pe.2) st₁).outputs
        = (ts.foldl (fun s t => applyText s (some t)) st₂).outputs := by
  intro evs
  induction evs with
  | nil =>
    intro ts st₁ st₂ hmap hf ho
    cases ts with
    | nil => exact ⟨hf, ho⟩
    | cons t ts => simp at hmap
  | cons pe evs ih =>
    intro ts st₁ st₂ hmap hf ho
    cases ts with
    | nil => simp at hmap
    | cons t ts =>
      simp only [List.map_cons, List.cons.injEq] at hmap
      obtain ⟨hhead, htail⟩ := hmap
      have hstep := applyText_congr
        { st₁ with debug := pushDebugEvent limit ⟨reqId, convId, jsTake pe.1 400⟩ st₁.debug }
        st₂ (some t) hf ho
      simp only [List.foldl_cons]
      exact ih ts _ _ htail
        (by simpa [handleEvent, hhead] using hstep.1)
        (by simpa [handleEvent, hhead] using hstep.2)

/-- C3 amended: for every sequence of parsed events whose extracted
cumulative texts form a prefix chain (each text extends the previous one —
in particular whenever the upstream reports genuinely cumulative text), the
concatenation of all emitted deltas equals the final cumulative text
exactly. -/
theorem c3_deltas_concat_prefix_chain (prompt reqId convId : String) (limit : Nat)
    (evs : List (String × Json)) (ts : List String)
    (hex : evs.map (fun pe => extractBestTextFromEvent pe.2 prompt) = ts.map some)
    (hchain : List.Chain' (fun a b => a.data <+: b.data) ts) :
    concatDeltas ((runEvents prompt reqId convId limit evs).outputs)
      = (ts.getLast?).getD "" := by
  obtain ⟨hf, ho⟩ := handleEvent_fold_eq_textFold prompt reqId convId limit evs ts
    initEngineState initEngineState hex rfl rfl
  have hchain0 : List.Chain (fun a b => a.data <+: b.data)
      initEngineState.fullText ts := by
    cases ts with
    | nil => exact List.Chain.nil
    | cons t ts' => exact List.Chain.cons (List.nil_prefix) hchain
  obtain ⟨hlast, hcat⟩ := textFold_chain ts initEngineState hchain0
  rw [concatDeltas, runEvents, ho, hcat]
  simp only [initEngineState, concatDeltasL, List.foldr_nil, List.nil_append, List.drop_zero]
  rw [← List.getLastD_eq_getLast?]
  rfl

/-- Witness for C3 amended: the prefix chain `"Hi"`, `"Hi there"` makes the
concatenated deltas equal the final text. -/
theorem c3_deltas_concat_prefix_chain_witness :
    concatDeltas ((runEvents "PROMPT" "r" "c" 50
        [("p1", jsonEventWithText "Hi"), ("p2", jsonEventWithText "Hi there")]).outputs)
      = ((["Hi", "Hi there"] : List String).getLast?).getD "" :=
  c3_deltas_concat_prefix_chain "PROMPT" "r" "c" 50
    [("p1", jsonEventWithText "Hi"), ("p2", jsonEventWithText "Hi there")]
    ["Hi", "Hi there"] (by decide) (List.Chain.cons (by decide) List.Chain.nil)
